import Mathlib

/-!
Verification development for the filename-parsing and name-formatting core of
the `namer` repository (`namer/fileinfo.py` and `namer/name_formatter.py`).

The Python code is shallowly embedded: every regular expression that appears in
the source is translated into an executable backtracking matcher over
`List Char` with exactly the alternation/greediness order of the source pattern, and
every function of the two modules becomes a total Lean function.  Character
classes are modelled over ASCII (all inputs of interest are ASCII; the Python classes
`\d`, `\w`, `\s` additionally accept some non-ASCII codepoints, which no claim
exercises).
-/

/-! ## Basic character classes and scanning helpers -/

/-- ASCII whitespace as recognised by the Python functions `str.split()` and
`str.strip()` and by regex `\s`. -/
def pyIsSpace (c : Char) : Bool :=
  c = ' ' || c = '\t' || c = '\n' || c = '\r' || c = '\x0b' || c = '\x0c'

/-- regex word character `\w` (ASCII fragment): letters, digits, underscore. -/
def isWordC (c : Char) : Bool :=
  c.isAlphanum || c = '_'

/-- regex `[\.\- ]`, the separator character class of the token pattern. -/
def isSepC (c : Char) : Bool :=
  c = '.' || c = '-' || c = ' '

/-- regex `.` outside DOTALL mode: any character except a newline. -/
def dotAny (c : Char) : Bool :=
  c ≠ '\n'

/-- Length of the maximal leading run of characters satisfying `p`. -/
def countWhile (p : Char → Bool) : List Char → Nat
  | [] => 0
  | c :: cs => if p c then countWhile p cs + 1 else 0

/-- Consume exactly `n` characters satisfying `p`, returning them and the rest. -/
def exactTake (p : Char → Bool) : Nat → List Char → Option (List Char × List Char)
  | 0, s => some ([], s)
  | _ + 1, [] => none
  | n + 1, c :: cs =>
    if p c then (exactTake p n cs).map (fun pr => (c :: pr.1, pr.2)) else none

/-- Case-insensitive literal match (pattern given in lowercase); returns the
rest of the input on success. -/
def ciLit : List Char → List Char → Option (List Char)
  | [], s => some s
  | _ :: _, [] => none
  | p :: ps, c :: cs => if c.toLower = p then ciLit ps cs else none

/-- Numeric value of a decimal digit string (models Python `int` on the digits
captured by a `\d+` group). -/
def digitsToNat (s : String) : Nat :=
  s.toList.foldl (fun a c => a * 10 + (c.toNat - '0'.toNat)) 0

/-- Model of Python `str.upper()` (ASCII). -/
def pyUpper (s : String) : String :=
  String.mk (s.toList.map Char.toUpper)

/-- Model of Python `str.lower()` (ASCII). -/
def pyLower (s : String) : String :=
  String.mk (s.toList.map Char.toLower)

/-- Model of `str.strip()`: remove leading and trailing whitespace. -/
def stripWsL (l : List Char) : List Char :=
  ((l.dropWhile pyIsSpace).reverse.dropWhile pyIsSpace).reverse

/-- Split on separator characters, keeping empty segments (Python
`str.split(sep)` with an explicit separator). -/
def splitCharKeep (sep : Char) (l : List Char) : List (List Char) :=
  l.foldr
    (fun c acc =>
      if c = sep then [] :: acc
      else match acc with
        | h :: t => (c :: h) :: t
        | [] => [[c]])
    [[]]

/-! ## Path model: `pathlib.PurePath` `name` / `suffix` / `stem`

`parse_file_name` uses `PurePath(filename).stem` and `.suffix`
(`fileinfo.py` lines 77-81).  On the target platform `PurePath` is
`PurePosixPath`: the name is the last path component (`/`-separated, with empty
and `.` components dropped), and the suffix is `name[i:]` for `i` the index of
the last dot, provided `0 < i < len(name) - 1`. -/

def pyName (p : String) : String :=
  String.mk
    ((((splitCharKeep '/' p.toList).filter
        (fun s => s ≠ [] && s ≠ ['.'])).getLast?).getD [])

/-- Index of the last `'.'` in a character list, if any. -/
def lastDotIdx (l : List Char) : Option Nat :=
  ((l.enum.filter (fun pr => pr.2 = '.')).map (fun pr => pr.1)).getLast?

def pySuffix (p : String) : String :=
  let n := (pyName p).toList
  match lastDotIdx n with
  | some i => if 0 < i ∧ i < n.length - 1 then String.mk (n.drop i) else ""
  | none => ""

def pyStem (p : String) : String :=
  let n := (pyName p).toList
  match lastDotIdx n with
  | some i => if 0 < i ∧ i < n.length - 1 then String.mk (n.take i) else String.mk n
  | none => String.mk n

/-- `path.suffix[1:] if path.suffix else ''` (`fileinfo.py` line 81). -/
def pyExtension (p : String) : String :=
  if pySuffix p ≠ "" then String.mk ((pySuffix p).toList.drop 1) else ""

/-! ## Data model: `FileInfo` (`fileinfo.py` lines 18-32)

The `hashes` field (a `PerceptualHash`, never touched by `parse_file_name`) is
omitted; all other fields are carried with their defaults. -/

structure FileInfo where
  site : Option String := none
  date : Option String := none
  trans : Bool := false
  name : Option String := none
  extension : Option String := none
  source_file_name : Option String := none
  jav_code : Option String := none
  code_type : Option String := none
  tpdb_id : Option Nat := none
deriving DecidableEq, Repr

/-- The slice of `NamerConfig` that `parse_file_name` reads: the ordered
cleanup patterns (each modelled as its global-removal action
`pattern.sub('', -)` on a string) and the ordered abbreviation table (each
pattern modelled as its anchored-match action returning the length of the
match at the start of the string, paired with the replacement text).  The
`name_parser` token template is fixed to the default
`DEFAULT_REGEX_TOKENS` of the source (site, separator, optional date, trans marker, name,
dot, extension), whose compiled composite pattern is embedded below. -/
structure NamerConfig where
  re_cleanup : List (String → String)
  site_abbreviations : List ((String → Option Nat) × String)

def cfgEmpty : NamerConfig := ⟨[], []⟩

/-! ## Name Cleaner (`fileinfo.py` lines 48-53) -/

/-- State of the single-pass model of `' '.join(name.split())`:
before any word / inside or right after a word / in whitespace after a word. -/
inductive JsState | start | word | gap
deriving DecidableEq, Repr

/-- Single-pass model of Python `' '.join(s.split())`: words (maximal runs of
non-whitespace) are joined with single spaces; leading and trailing whitespace
produces nothing. -/
def joinSplitGo (st : JsState) : List Char → List Char
  | [] => []
  | c :: cs =>
    if pyIsSpace c then
      joinSplitGo (match st with | .word => .gap | s => s) cs
    else
      (match st with | .gap => [' ', c] | _ => [c]) ++ joinSplitGo .word cs

def joinSplitL (s : List Char) : List Char := joinSplitGo .start s

/-- Model of `str.strip('-')`: remove leading and trailing dash characters. -/
def stripDashL (l : List Char) : List Char :=
  ((l.dropWhile (fun c => c = '-')).reverse.dropWhile (fun c => c = '-')).reverse

/-- `name_cleaner` (`fileinfo.py` lines 48-53): apply each cleanup pattern in
order as a global removal, replace `'.'` by `' '`, then
`' '.join(name.split()).strip('-')`. -/
def name_cleaner (name : String) (re_cleanup : List (String → String)) : String :=
  let n := re_cleanup.foldl (fun a f => f a) name
  let n := n.toList.map (fun c => if c = '.' then ' ' else c)
  String.mk (stripDashL (joinSplitL n))

/-! ## Abbreviation expander (`fileinfo.py` lines 139-144)

For each table entry in order: if the pattern matches at the start of the
text, substitute the matched span by the replacement once and stop. -/

def replace_abbreviations (cfg : NamerConfig) (text : String) : String :=
  go cfg.site_abbreviations
where
  go : List ((String → Option Nat) × String) → String
  | [] => text
  | (pat, full) :: rest =>
    match pat text with
    | some len => full ++ String.mk (text.toList.drop len)
    | none => go rest

/-! ## Database-ID tag matcher: regex `\[(?:the)?porndbid=(\d+)\]`,
case-insensitive, `re.search` over the stem (`fileinfo.py` lines 84-85). -/

/-- After `porndbid=`: a maximal nonempty digit run followed by `']'`
(the `\d+` group backtracks only to digits, so only the maximal run can be
followed by the non-digit `']'`). -/
def tpdbDigits (r : List Char) : Option (List Char) :=
  let n := countWhile Char.isDigit r
  if 1 ≤ n ∧ r.get? n = some ']' then some (r.take n) else none

def tpdbTail (s : List Char) : Option (List Char) :=
  match ciLit "porndbid=".toList s with
  | some r => tpdbDigits r
  | none => none

/-- Match attempt at one position: `'['`, optional `the` (greedy, with
fallback), `porndbid=`, digits, `']'`.  Returns the digit group. -/
def tpdbAt : List Char → Option (List Char)
  | '[' :: rest =>
    (match ciLit "the".toList rest with
     | some r => tpdbTail r
     | none => none) <|> tpdbTail rest
  | _ => none

/-- Leftmost search, as `re.search`. -/
def tpdbSearchL : List Char → Option (List Char)
  | [] => none
  | c :: cs => tpdbAt (c :: cs) <|> tpdbSearchL cs

def tpdbSearch (s : String) : Option String :=
  (tpdbSearchL s.toList).map (fun l => String.mk l)

/-! ## Catalog-code matcher: `re.findall` of `([a-zA-Z]{2,5}-\d{3,5})`
over the stem, then first acceptable candidate (`fileinfo.py` lines 93-104). -/

/-- Greedy `[a-zA-Z]{2,5}` followed by `'-'`: try 5 letters down to 2; the
letter count that leaves `'-'` as the next character wins. -/
def javLettersGo (s : List Char) : Nat → Option Nat
  | 0 => none
  | k + 1 =>
    if 2 ≤ k + 1 ∧ (exactTake Char.isAlpha (k + 1) s).isSome ∧ s.get? (k + 1) = some '-'
    then some (k + 1)
    else javLettersGo s k

/-- Greedy `\d{3,5}` with nothing after it: takes `min(run, 5)` digits,
requiring at least 3. -/
def javNumLen (s : List Char) : Option Nat :=
  let d := countWhile Char.isDigit s
  if d ≥ 5 then some 5 else if d ≥ 3 then some d else none

/-- Length of a catalog-code match starting exactly here, if any. -/
def javAt (s : List Char) : Option Nat :=
  match javLettersGo s 5 with
  | some k => (javNumLen (s.drop (k + 1))).map (fun j => k + 1 + j)
  | none => none

/-- `re.findall`: scan left to right, collecting non-overlapping matches.
Fuel is the input length; every step consumes at least one character, so the
fuel never runs out before the input does. -/
def javFindallGo : Nat → List Char → List (List Char)
  | 0, _ => []
  | _ + 1, [] => []
  | fuel + 1, c :: cs =>
    match javAt (c :: cs) with
    | some len => (c :: cs).take len :: javFindallGo fuel ((c :: cs).drop len)
    | none => javFindallGo fuel cs

def javFindall (s : List Char) : List (List Char) :=
  javFindallGo s.length s

def forbiddenStarts : List String := ["WEBDL"]
def forbiddenResolutions : List String := ["2160", "1080", "720", "480", "360"]

/-- Acceptance test of the candidate loop (`fileinfo.py` line 102):
the uppercased code must not start with a forbidden prefix string, and the
digit part (`code.split('-')[-1]`) must not be a forbidden resolution. -/
def javAccept (code : String) : Bool :=
  !(forbiddenStarts.any (fun p => p.toList.isPrefixOf (pyUpper code).toList)) &&
  !(forbiddenResolutions.contains
      (String.mk ((splitCharKeep '-' code.toList).getLastD code.toList)))

/-- First acceptable candidate, in order of appearance (raw, not yet
uppercased). -/
def javFirstAccepted (stem : String) : Option String :=
  ((javFindall stem.toList).map (fun l => String.mk l)).find? javAccept

/-! ## Scene-ID matcher: `re.search` of `\b((?:did|milf)\-?\d{2,4})\b`,
case-insensitive (`fileinfo.py` lines 107-110). -/

/-- Trailing `\d{2,4}` followed by a word boundary: the digit run must have
length 2 to 4 (a longer run leaves a digit after any permitted take) and the
character after it, if any, must not be a word character. -/
def sceneDigitsTail (r : List Char) : Option (List Char) :=
  let n := countWhile Char.isDigit r
  if 2 ≤ n && n ≤ 4 && (match r.get? n with | none => true | some c => !isWordC c)
  then some (r.take n)
  else none

/-- After the `did`/`milf` token: greedy optional dash, then digits; on
failure with the dash, retry without consuming it. -/
def sceneAfterWord (wtaken : List Char) (r : List Char) : Option (List Char) :=
  (match r with
   | '-' :: r2 => (sceneDigitsTail r2).map (fun ds => wtaken ++ '-' :: ds)
   | _ => none)
  <|> (sceneDigitsTail r).map (fun ds => wtaken ++ ds)

def sceneWordTry (w : List Char) (s : List Char) : Option (List Char) :=
  match ciLit w s with
  | some r => sceneAfterWord (s.take w.length) r
  | none => none

def sceneAt (s : List Char) : Option (List Char) :=
  sceneWordTry "did".toList s <|> sceneWordTry "milf".toList s

/-- Leftmost search; `prevWord` tracks whether the previous character is a
word character (for the leading `\b`). -/
def sceneSearchGo : Bool → List Char → Option (List Char)
  | _, [] => none
  | prevWord, c :: cs =>
    (if prevWord then none else sceneAt (c :: cs)) <|> sceneSearchGo (isWordC c) cs

def sceneSearch (s : String) : Option String :=
  (sceneSearchGo false s.toList).map (fun l => String.mk l)

/-! ## Composite token pattern (`fileinfo.py` lines 56-71)

`parser_config_to_regex` applied to the default token template of the source
produces (named groups in capture order):

  `(?P<site>.*?)` `[\.\- ]+`
  `(?:(?P<year>[0-9]{2}(?:[0-9]{2})?)[\.\- ]+(?P<month>[0-9]{2})[\.\- ]+(?P<day>[0-9]{2})[\.\- ]+)?`
  `((?P<trans>[T|t][S|s])[\.\- ]+){0,1}`
  `(?P<name>(?:.(?![0-9]{2,4}[\.\- ][0-9]{2}[\.\- ][0-9]{2}))*)`
  `\.` `(?P<ext>[a-zA-Z0-9]{3,4})$`

searched with `re.search`.  The matcher below is written in
continuation-passing style so that every alternation and greedy/lazy choice
backtracks exactly as the Python regex engine does.  Note that the trans
character classes are `[T|t]` and `[S|s]` verbatim from the source: they
contain the literal `'|'`. -/

structure TokenMatch where
  site : String
  ymd : Option (String × String × String)
  trans : Option String
  name : String
  ext : String
deriving DecidableEq, Repr

/-- Greedy `[\.\- ]+` with backtracking: try the maximal separator run first,
then shorter nonempty prefixes of it. -/
def sepPlusBT {α : Type} (s : List Char) (k : List Char → Option α) : Option α :=
  go (countWhile isSepC s)
where
  go : Nat → Option α
  | 0 => none
  | j + 1 => k (s.drop (j + 1)) <|> go j

/-- One date attempt with a fixed year width (4 or 2 digits). -/
def dateTry {α : Type} (n : Nat) (s : List Char)
    (k : Option (String × String × String) → List Char → Option α) : Option α :=
  match exactTake Char.isDigit n s with
  | none => none
  | some (y, s1) =>
    sepPlusBT s1 fun s2 =>
      match exactTake Char.isDigit 2 s2 with
      | none => none
      | some (mo, s3) =>
        sepPlusBT s3 fun s4 =>
          match exactTake Char.isDigit 2 s4 with
          | none => none
          | some (d, s5) =>
            sepPlusBT s5 fun s6 =>
              k (some (String.mk y, String.mk mo, String.mk d)) s6

/-- The optional date group: greedy, year width 4 before 2, full fallback to
the empty alternative. -/
def dateOpt {α : Type} (s : List Char)
    (k : Option (String × String × String) → List Char → Option α) : Option α :=
  (dateTry 4 s k <|> dateTry 2 s k) <|> k none s

/-- The optional trans group `((?P<trans>[T|t][S|s])[\.\- ]+){0,1}`:
greedy, with full fallback to the empty alternative. -/
def transOpt {α : Type} (s : List Char)
    (k : Option (List Char) → List Char → Option α) : Option α :=
  (match s with
   | c1 :: c2 :: rest =>
     if (c1 = 'T' || c1 = '|' || c1 = 't') && (c2 = 'S' || c2 = '|' || c2 = 's')
     then sepPlusBT rest (k (some [c1, c2]))
     else none
   | _ => none)
  <|> k none s

/-- The negative lookahead `[0-9]{2,4}[\.\- ][0-9]{2}[\.\- ][0-9]{2}`: true if
a date-looking run starts here (for some year width 2-4). -/
def dateAhead (s : List Char) : Bool :=
  [2, 3, 4].any fun w =>
    match exactTake Char.isDigit w s with
    | none => false
    | some (_, r1) =>
      match r1 with
      | c1 :: r2 =>
        isSepC c1 &&
        (match exactTake Char.isDigit 2 r2 with
         | none => false
         | some (_, r3) =>
           match r3 with
           | c2 :: r4 => isSepC c2 && (exactTake Char.isDigit 2 r4).isSome
           | [] => false)
      | [] => false

/-- The greedy name group `(?:.(?![date]))*`: consume as much as possible,
checking the lookahead after each consumed character, and backtrack. -/
def nameLoop {α : Type} (acc : List Char) (s : List Char)
    (k : List Char → List Char → Option α) : Option α :=
  match s with
  | [] => k acc []
  | c :: cs =>
    if dotAny c && !dateAhead cs then
      nameLoop (acc ++ [c]) cs k <|> k acc (c :: cs)
    else
      k acc (c :: cs)

/-- Final `\.(?P<ext>[a-zA-Z0-9]{3,4})$`: greedy 4 before 3, then end of
string (or a final newline, as regex `$`). -/
def extTry {α : Type} (n : Nat) (s : List Char) (k : String → Option α) : Option α :=
  match exactTake Char.isAlphanum n s with
  | some (e, r) => if r = [] || r = ['\n'] then k (String.mk e) else none
  | none => none

def dotExt {α : Type} (s : List Char) (k : String → Option α) : Option α :=
  match s with
  | '.' :: rest => extTry 4 rest k <|> extTry 3 rest k
  | _ => none

/-- The lazy site group `.*?`: try the continuation before consuming. -/
def siteLoop {α : Type} (acc : List Char) (s : List Char)
    (k : List Char → List Char → Option α) : Option α :=
  k acc s <|>
  match s with
  | c :: cs => if dotAny c then siteLoop (acc ++ [c]) cs k else none
  | [] => none

/-- Match of the whole composite pattern starting at this position. -/
def tokenAt (s : List Char) : Option TokenMatch :=
  siteLoop [] s fun site s1 =>
    sepPlusBT s1 fun s2 =>
      dateOpt s2 fun ymd s3 =>
        transOpt s3 fun tr s4 =>
          nameLoop [] s4 fun nm s5 =>
            dotExt s5 fun ext =>
              some { site := String.mk site, ymd := ymd, trans := tr.map (fun l => String.mk l),
                     name := String.mk nm, ext := ext }

/-- `re.search`: leftmost starting position wins. -/
def tokenSearchL : List Char → Option TokenMatch
  | [] => tokenAt []
  | c :: cs => tokenAt (c :: cs) <|> tokenSearchL cs

def tokenSearch (s : String) : Option TokenMatch :=
  tokenSearchL s.toList

/-! ## `parse_file_name` (`fileinfo.py` lines 74-136)

Decomposed into the blocks of the source; logging calls are dropped. -/

/-- Lines 75-81: fresh record with `source_file_name` and the
`PurePath`-derived extension. -/
def fileInfoBase (filename : String) : FileInfo :=
  { source_file_name := some filename, extension := some (pyExtension filename) }

/-- Lines 93-110: catalog-code extraction, then scene-ID extraction only if no
catalog code was accepted.  Returns `(found_code, code_type)`. -/
def codeSearch (stem : String) : Option (String × String) :=
  match javFirstAccepted stem with
  | some code => some (pyUpper code, "JAV")
  | none =>
    match sceneSearch stem with
    | some g => some (pyLower g, "SCENE_MOVIE_ID")
    | none => none

/-- Lines 112-115: store the found code, if any. -/
def withCode (fi : FileInfo) : Option (String × String) → FileInfo
  | some (c, t) => { fi with jav_code := some c, code_type := some t }
  | none => fi

/-- Lines 122-124: the `year` group is truthy iff the date group matched
(its text is then nonempty); a 2-digit year gets prefix `"20"`. -/
def applyDate (m : TokenMatch) (fi : FileInfo) : FileInfo :=
  match m.ymd with
  | some (y, mo, d) =>
    { fi with date := some ((if y.length = 2 then "20" else "") ++ y ++ "-" ++ mo ++ "-" ++ d) }
  | none => fi

/-- Lines 125-126: the `name` group always participates but may be empty;
only a nonempty (truthy) capture is cleaned and stored. -/
def applyName (cfg : NamerConfig) (m : TokenMatch) (fi : FileInfo) : FileInfo :=
  if m.name ≠ "" then { fi with name := some (name_cleaner m.name cfg.re_cleanup) } else fi

/-- Lines 127-128. -/
def applySite (m : TokenMatch) (fi : FileInfo) : FileInfo :=
  if m.site ≠ "" then { fi with site := some m.site } else fi

/-- Lines 129-131: for a truthy `trans` capture, the flag is the test
`trans.strip().upper() == TS`. -/
def applyTrans (m : TokenMatch) (fi : FileInfo) : FileInfo :=
  match m.trans with
  | some t => if t ≠ "" then
      { fi with trans := (pyUpper (String.mk (stripWsL t.toList)) == "TS") } else fi
  | none => fi

def applyTokenMatch (cfg : NamerConfig) (m : TokenMatch) (fi : FileInfo) : FileInfo :=
  applyTrans m (applySite m (applyName cfg m (applyDate m fi)))

/-- `parse_file_name` (`fileinfo.py` lines 74-136).  The TPDB-tag branch
returns immediately; otherwise code extraction runs on the stem and the token
pattern on the abbreviation-expanded original filename. -/
def parse_file_name (cfg : NamerConfig) (filename : String) : FileInfo :=
  match tpdbSearch (pyStem filename) with
  | some ds => { fileInfoBase filename with tpdb_id := some (digitsToNat ds) }
  | none =>
    match tokenSearch (replace_abbreviations cfg filename) with
    | some m =>
      applyTokenMatch cfg m (withCode (fileInfoBase filename) (codeSearch (pyStem filename)))
    | none => withCode (fileInfoBase filename) (codeSearch (pyStem filename))

/-! ## Template renderer: `name_formatter.py`

Values flowing through the formatter (`RenderContext` entries): strings,
booleans, integers, lists of strings, or Python `None`. -/

inductive Value
  | none
  | str (s : String)
  | bool (b : Bool)
  | int (n : Int)
  | list (xs : List String)
deriving DecidableEq, Repr

/-- Python truthiness test `not value` for the value types above. -/
def isFalsy : Value → Bool
  | .none => true
  | .str s => s = ""
  | .bool b => !b
  | .int n => n = 0
  | .list xs => xs.isEmpty

/-- Python exception classes that the embedded formatter can raise.
`keyError` carries the offending field name. -/
inductive PyErr
  | keyError (k : String)
  | valueError
  | typeError
  | templateError
deriving DecidableEq, Repr

/-- The fixed allow-list `PartialFormatter.supported_keys`
(`name_formatter.py` lines 13-18). -/
def supported_keys : List String :=
  ["date", "description", "name", "site", "full_site", "parent", "full_parent", "network",
   "full_network", "performers", "all_performers", "performer-sites", "all_performer-sites",
   "act", "ext", "trans", "source_file_name", "source_file_stem", "uuid", "_id", "vr", "type",
   "year", "resolution", "video_codec", "audio_codec", "external_id", "fps"]

/-- Renderer configuration (`PartialFormatter.__init__`, lines 26-29):
the missing-value marker and the bad-format marker, with their defaults. -/
structure PartialFormatter where
  missing : String := "~~"
  bad_fmt : String := "!!"
deriving DecidableEq, Repr

/-- Dictionary lookup performed by `string.Formatter.get_field` for a simple
named field: `kwargs[field_name]`, first binding wins. -/
def lookupVal (kwargs : List (String × Value)) (k : String) : Option Value :=
  (kwargs.find? (fun pr => pr.1 = k)).map (fun pr => pr.2)

/-- `PartialFormatter.get_field` (`name_formatter.py` lines 31-43) for a
simple named field: the superclass lookup is attempted first; only when it
fails with `KeyError` is the allow-list consulted, raising for an unsupported
name and yielding the value `None` for a supported one. -/
def get_field (kwargs : List (String × Value)) (field_name : String) :
    Except PyErr (Value × String) :=
  match lookupVal kwargs field_name with
  | some v => .ok (v, field_name)
  | Option.none =>
    if supported_keys.contains field_name then .ok (.none, field_name)
    else .error (.keyError field_name)

/-- Characters kept by the `name`-field sanitization regex
`[^a-zA-Z0-9\s\-\(\)\[\]_.,]` removal (`name_formatter.py` line 53). -/
def keepC (c : Char) : Bool :=
  c.isAlphanum || pyIsSpace c || c = '-' || c = '(' || c = ')' || c = '[' || c = ']' ||
  c = '_' || c = '.' || c = ','

/-- Generalized run collapsing: `re.sub(r'[class]+', ' ', s)` replaces every
maximal run of characters of the class with a single space. -/
def collapseGo (p : Char → Bool) (inRun : Bool) : List Char → List Char
  | [] => []
  | c :: cs =>
    if p c then
      (if inRun then [] else [' ']) ++ collapseGo p true cs
    else
      c :: collapseGo p false cs

def collapseClass (p : Char → Bool) (l : List Char) : List Char :=
  collapseGo p false l

/-- Characters collapsed by `re.sub(r'[\s.-]+', ' ', s)` (line 55). -/
def spaceDotDash (c : Char) : Bool :=
  pyIsSpace c || c = '.' || c = '-'

/-- The mandatory `name`-field processing (`name_formatter.py` lines 50-62):
whitelist-sanitize, collapse space/dot/dash runs to single spaces and strip,
then truncate to 180 characters and strip again. -/
def sanitizeNameStr (s : String) : String :=
  let l1 := s.toList.filter keepC
  let l2 := stripWsL (collapseClass spaceDotDash l1)
  let l3 := if l2.length > 180 then stripWsL (l2.take 180) else l2
  String.mk l3

/-- Applies the `name` processing when the value is a string and the field
currently being formatted is `name` (line 50). -/
def nameAdjust (current_field : String) (v : Value) : Value :=
  match v with
  | .str s => if current_field = "name" then .str (sanitizeNameStr s) else v
  | _ => v

/-- Model of Python `int(s)`: optional surrounding whitespace, optional sign,
then a nonempty digit string; anything else raises `ValueError`. -/
def pyInt (s : String) : Except PyErr Int :=
  match stripWsL s.toList with
  | '-' :: r =>
    if r ≠ [] ∧ r.all Char.isDigit then .ok (-(digitsToNat (String.mk r) : Int))
    else .error .valueError
  | '+' :: r =>
    if r ≠ [] ∧ r.all Char.isDigit then .ok (digitsToNat (String.mk r) : Int)
    else .error .valueError
  | r =>
    if r ≠ [] ∧ r.all Char.isDigit then .ok (digitsToNat (String.mk r) : Int)
    else .error .valueError

/-- Python `str * n` for a single character (negative counts give `""`). -/
def repChar (c : Char) (n : Int) : String :=
  String.mk (List.replicate n.toNat c)

/-- `re.match(r'.\d+s', spec)` (and the `p`/`i` variants): a prefix of the
spec consisting of any character, a nonempty digit run, then the given
letter.  Since `\d+` backtracks only onto digits, the letter must follow the
maximal digit run. -/
def specMatch (letter : Char) (spec : String) : Bool :=
  match spec.toList with
  | c :: rest =>
    dotAny c &&
    (let n := countWhile Char.isDigit rest
     decide (1 ≤ n) && rest.get? n = some letter)
  | [] => false

/-- `format_spec[0]`. -/
def specHead (spec : String) : Char :=
  spec.toList.headD ' '

/-- `format_spec[1:-1]`. -/
def specInner (spec : String) : String :=
  String.mk ((spec.toList.drop 1).dropLast)

/-- String repr of a Python list of strings, as produced by `str(list)`
(no escaping; the embedded values contain no quotes). -/
def pyListRepr (xs : List String) : String :=
  "[" ++ String.intercalate ", " (xs.map (fun x => "\x27" ++ x ++ "\x27")) ++ "]"

/-- Word accumulator for `pyWords` (right fold: current word, finished words). -/
def pyWordsStep (c : Char) (acc : List Char × List (List Char)) :
    List Char × List (List Char) :=
  if pyIsSpace c then ([], if acc.1 = [] then acc.2 else acc.1 :: acc.2)
  else (c :: acc.1, acc.2)

/-- Python `str.split()`: split on whitespace runs, dropping empty pieces. -/
def pySplitWs (s : String) : List String :=
  let r := s.toList.foldr pyWordsStep ([], [])
  ((if r.1 = [] then r.2 else r.1 :: r.2)).map (fun w => String.mk w)

/-- Model of `jinja2.Template('... val|<expr> ...').render(val=value)` with
the single registered custom filter `split = str.split`
(`name_formatter.py` lines 29 and 74-77).  An unknown filter expression
raises at template construction (not a `ValueError`). -/
def jinjaApply (v : Value) (filterExpr : String) : Except PyErr String :=
  if filterExpr = "split" then
    match v with
    | .str s => .ok (pyListRepr (pySplitWs s))
    | _ => .error .typeError
  else .error .templateError

/-- Fragment of Python `str.__format__` sufficient for the specs exercised
here: `[width][.precision][s]` (left-aligned, space fill).  Any other spec -
in particular a trailing type letter other than `s` - raises `ValueError`,
as CPython does for e.g. `format('abc', 'd')`. -/
def strFormat (s : String) (spec : String) : Except PyErr String :=
  let cs := spec.toList
  let wlen := countWhile Char.isDigit cs
  let width := digitsToNat (String.mk (cs.take wlen))
  let rest1 := cs.drop wlen
  let pad : String → String := fun t =>
    t ++ String.mk (List.replicate (width - t.length) ' ')
  match rest1 with
  | [] => .ok (pad s)
  | ['s'] => .ok (pad s)
  | '.' :: r2 =>
    let plen := countWhile Char.isDigit r2
    if plen = 0 then .error .valueError
    else
      let prec := digitsToNat (String.mk (r2.take plen))
      match r2.drop plen with
      | [] => .ok (pad (String.mk (s.toList.take prec)))
      | ['s'] => .ok (pad (String.mk (s.toList.take prec)))
      | _ => .error .valueError
  | _ => .error .valueError

/-- Fragment of Python `int.__format__`. -/
def intFormat (n : Int) (spec : String) : Except PyErr String :=
  if spec = "" || spec = "d" then .ok (toString n) else .error .valueError

/-- Model of the builtin `format(value, format_spec)` called by
`string.Formatter.format_field`.  A nonempty spec on a list raises
`TypeError` (CPython: unsupported format string passed to `list.__format__`). -/
def pyFormat (v : Value) (spec : String) : Except PyErr String :=
  match v with
  | .str s => strFormat s spec
  | .list xs => if spec = "" then .ok (pyListRepr xs) else .error .typeError
  | .bool b => if spec = "" then .ok (if b then "True" else "False")
               else intFormat (if b then 1 else 0) spec
  | .int n => intFormat n spec
  | .none => if spec = "" then .ok "None" else .error .typeError

/-- The body of the `try` block of `format_field`
(`name_formatter.py` lines 64-79): the three decoration branches, the
filter-expression branch, then the superclass formatting.  In the decoration
branches Python first evaluates `int(format_spec[1:-1])` (possible
`ValueError`) and then concatenates, which raises `TypeError` for a non-string
value. -/
def applySpec (value : Value) (format_spec : String) : Except PyErr String :=
  if specMatch 's' format_spec then
    match pyInt (specInner format_spec) with
    | .error e => .error e
    | .ok n =>
      match value with
      | .str s => .ok (s ++ repChar (specHead format_spec) n)
      | _ => .error .typeError
  else if specMatch 'p' format_spec then
    match pyInt (specInner format_spec) with
    | .error e => .error e
    | .ok n =>
      match value with
      | .str s => .ok (repChar (specHead format_spec) n ++ s)
      | _ => .error .typeError
  else if specMatch 'i' format_spec then
    match pyInt (specInner format_spec) with
    | .error e => .error e
    | .ok n =>
      match value with
      | .str s => .ok (repChar (specHead format_spec) n ++ s ++ repChar (specHead format_spec) n)
      | _ => .error .typeError
  else if (match format_spec.toList with | '|' :: _ => true | _ => false) then
    jinjaApply value (String.mk (format_spec.toList.drop 1))
  else
    pyFormat value format_spec

/-- `PartialFormatter.format_field` (`name_formatter.py` lines 45-83):
falsy values yield the missing marker immediately; the `name` field gets the
mandatory sanitization; then the spec is applied, with only `ValueError`
caught and replaced by the bad-format marker - and re-raised when that marker
is empty. -/
def format_field (pf : PartialFormatter) (current_field : String) (value : Value)
    (format_spec : String) : Except PyErr String :=
  if isFalsy value then .ok pf.missing
  else
    match applySpec (nameAdjust current_field value) format_spec with
    | .ok r => .ok r
    | .error .valueError =>
      if pf.bad_fmt ≠ "" then .ok pf.bad_fmt else .error .valueError
    | .error e => .error e

/-! ## Spec-side definitions

These follow the wording of the specification, for the refinement claims that
compare the wording of the spec with the code. -/

/-- Removal of trailing whitespace ("trim" on the right). -/
def trimRightL : List Char → List Char
  | [] => []
  | c :: cs =>
    match trimRightL cs with
    | [] => if pyIsSpace c then [] else [c]
    | r => c :: r

/-- Name Cleaner as the specification words it: apply each cleanup pattern in
list order as a global removal, then replace every literal dot with a space,
collapse all consecutive whitespace into single spaces, trim, and strip
leading/trailing dash characters. -/
def name_cleaner_spec (name : String) (re_cleanup : List (String → String)) : String :=
  let n := re_cleanup.foldl (fun a f => f a) name
  let n := n.toList.map (fun c => if c = '.' then ' ' else c)
  String.mk (stripDashL (trimRightL ((collapseClass pyIsSpace n).dropWhile pyIsSpace)))

/-! ## Helper lemmas -/

theorem withCode_pres (fi : FileInfo) (oc : Option (String × String)) :
    (withCode fi oc).extension = fi.extension ∧
    (withCode fi oc).source_file_name = fi.source_file_name ∧
    (withCode fi oc).tpdb_id = fi.tpdb_id := by
  cases oc with
  | none => exact ⟨rfl, rfl, rfl⟩
  | some p => cases p; exact ⟨rfl, rfl, rfl⟩

theorem applyTokenMatch_pres (cfg : NamerConfig) (m : TokenMatch) (fi : FileInfo) :
    (applyTokenMatch cfg m fi).extension = fi.extension ∧
    (applyTokenMatch cfg m fi).source_file_name = fi.source_file_name ∧
    (applyTokenMatch cfg m fi).jav_code = fi.jav_code ∧
    (applyTokenMatch cfg m fi).code_type = fi.code_type ∧
    (applyTokenMatch cfg m fi).tpdb_id = fi.tpdb_id := by
  unfold applyTokenMatch applyTrans applySite applyName applyDate
  repeat' split
  all_goals exact ⟨rfl, rfl, rfl, rfl, rfl⟩

theorem trimRightL_cons_of_not_space (c : Char) (t : List Char) (hc : pyIsSpace c = false) :
    trimRightL (c :: t) = c :: trimRightL t := by
  cases h : trimRightL t with
  | nil => simp [trimRightL, h, hc]
  | cons d ds => simp [trimRightL, h]

theorem trimRightL_cons_of_ne_nil (c : Char) (t : List Char) (h : trimRightL t ≠ []) :
    trimRightL (c :: t) = c :: trimRightL t := by
  cases hh : trimRightL t with
  | nil => exact absurd hh h
  | cons d ds => simp [trimRightL, hh]


theorem joinSplitGo_cons_space (st : JsState) (c : Char) (cs : List Char)
    (hc : pyIsSpace c = true) :
    joinSplitGo st (c :: cs) =
      joinSplitGo (match st with | .word => .gap | s => s) cs := by
  simp [joinSplitGo, hc]

theorem joinSplitGo_cons_nonspace (st : JsState) (c : Char) (cs : List Char)
    (hc : pyIsSpace c = false) :
    joinSplitGo st (c :: cs) =
      (match st with | .gap => [' ', c] | _ => [c]) ++ joinSplitGo .word cs := by
  simp [joinSplitGo, hc]

theorem collapseGo_cons_pos (p : Char → Bool) (b : Bool) (c : Char) (cs : List Char)
    (hc : p c = true) :
    collapseGo p b (c :: cs) = (if b then [] else [' ']) ++ collapseGo p true cs := by
  simp [collapseGo, hc]

theorem collapseGo_cons_neg (p : Char → Bool) (b : Bool) (c : Char) (cs : List Char)
    (hc : p c = false) :
    collapseGo p b (c :: cs) = c :: collapseGo p false cs := by
  simp [collapseGo, hc]

/-- The two collapse states agree after stripping leading whitespace. -/
theorem collapse_dropWhile_state (cs : List Char) :
    (collapseGo pyIsSpace true cs).dropWhile pyIsSpace =
    (collapseGo pyIsSpace false cs).dropWhile pyIsSpace := by
  cases cs with
  | nil => rfl
  | cons d ds =>
    by_cases hd : pyIsSpace d
    · rw [collapseGo_cons_pos _ _ _ _ hd, collapseGo_cons_pos _ _ _ _ hd]
      rfl
    · rw [collapseGo_cons_neg _ _ _ _ (by simpa using hd),
          collapseGo_cons_neg _ _ _ _ (by simpa using hd)]

/-- The word and gap states of the join-split pass agree with collapse
followed by a right trim. -/
theorem joinSplit_word_gap (cs : List Char) :
    joinSplitGo .word cs = trimRightL (collapseGo pyIsSpace false cs) ∧
    joinSplitGo .gap cs = trimRightL (' ' :: collapseGo pyIsSpace true cs) := by
  induction cs with
  | nil => constructor <;> simp [joinSplitGo, trimRightL, collapseGo, pyIsSpace]
  | cons c cs ih =>
    by_cases hc : pyIsSpace c
    · constructor
      · rw [joinSplitGo_cons_space _ _ _ hc, collapseGo_cons_pos _ _ _ _ hc]
        exact ih.2
      · rw [joinSplitGo_cons_space _ _ _ hc, collapseGo_cons_pos _ _ _ _ hc]
        exact ih.2
    · have hcf : pyIsSpace c = false := by simpa using hc
      constructor
      · rw [joinSplitGo_cons_nonspace _ _ _ hcf, collapseGo_cons_neg _ _ _ _ hcf,
            trimRightL_cons_of_not_space c _ hcf]
        simpa using ih.1
      · rw [joinSplitGo_cons_nonspace _ _ _ hcf, collapseGo_cons_neg _ _ _ _ hcf]
        rw [trimRightL_cons_of_ne_nil ' ' _ (by
              rw [trimRightL_cons_of_not_space c _ hcf]
              exact List.cons_ne_nil _ _)]
        rw [trimRightL_cons_of_not_space c _ hcf]
        simpa using ih.1

/-- Single-pass `' '.join(s.split())` equals: collapse whitespace runs to
single spaces, then trim on both sides. -/
theorem joinSplit_eq_collapse_trim (s : List Char) :
    joinSplitL s = trimRightL ((collapseClass pyIsSpace s).dropWhile pyIsSpace) := by
  unfold joinSplitL collapseClass
  induction s with
  | nil => rfl
  | cons c cs ih =>
    by_cases hc : pyIsSpace c
    · rw [joinSplitGo_cons_space _ _ _ hc, collapseGo_cons_pos _ _ _ _ hc]
      rw [show ((if false then ([] : List Char) else [' ']) ++ collapseGo pyIsSpace true cs)
            = ' ' :: collapseGo pyIsSpace true cs from rfl]
      rw [List.dropWhile_cons_of_pos (by decide : pyIsSpace ' ' = true)]
      rw [collapse_dropWhile_state]
      exact ih
    · have hcf : pyIsSpace c = false := by simpa using hc
      rw [joinSplitGo_cons_nonspace _ _ _ hcf, collapseGo_cons_neg _ _ _ _ hcf]
      rw [List.dropWhile_cons_of_neg (by simp [hcf])]
      rw [trimRightL_cons_of_not_space c _ hcf]
      simpa using (joinSplit_word_gap cs).1

/-! ## Claim theorems -/

/-- C9: the Name Cleaner applies each cleanup pattern in list order as a
global removal, then replaces every literal dot with a space, collapses all
consecutive whitespace into single spaces, trims, and strips leading/trailing
dash characters; in particular, with an empty cleanup-pattern list,
`"A.B..C"` yields `"A B C"`. -/
theorem c9_name_cleaner :
    (∀ (re_cleanup : List (String → String)) (name : String),
        name_cleaner name re_cleanup = name_cleaner_spec name re_cleanup) ∧
    name_cleaner "A.B..C" [] = "A B C" := by
  constructor
  · intro fs n
    simp only [name_cleaner, name_cleaner_spec]
    rw [joinSplit_eq_collapse_trim]
  · rfl

/-- C10: a falsy resolved value - absent, `False`, empty string, zero, or an
empty list - makes `format_field` return the missing marker verbatim, with
all format-spec processing skipped. -/
theorem c10_falsy_missing (pf : PartialFormatter) (cf : String) (v : Value)
    (spec : String) (h : isFalsy v = true) :
    format_field pf cf v spec = .ok pf.missing := by
  simp [format_field, h]

/-- C10 witness: a `trans = False` context value renders as `"~~"` under the
default markers, even with a decorating format spec attached. -/
theorem c10_witness :
    isFalsy (Value.bool false) = true ∧
    format_field {} "trans" (Value.bool false) "x2s" = .ok "~~" :=
  ⟨rfl, c10_falsy_missing {} "trans" (Value.bool false) "x2s" rfl⟩

/-- C3 counterexample: `"bogus"` is outside `supported_keys`, yet when the
supplied mapping contains a value for it, `get_field` returns that value
without raising. -/
theorem c3_counterexample :
    get_field [("bogus", Value.str "x")] "bogus" = .ok (Value.str "x", "bogus") ∧
    supported_keys.contains "bogus" = false :=
  ⟨rfl, rfl⟩

/-- C3 amended: `get_field` raises `KeyError` exactly when the mapping lookup
fails and the field name is outside `supported_keys`; a mapping-supplied
value is returned regardless of the allow-list, and a supported name whose
lookup fails resolves to the value `None`. -/
theorem c3_amended_get_field :
    (∀ (kwargs : List (String × Value)) (f : String),
        lookupVal kwargs f = none → supported_keys.contains f = false →
        get_field kwargs f = .error (.keyError f)) ∧
    (∀ (kwargs : List (String × Value)) (f : String) (v : Value),
        lookupVal kwargs f = some v → get_field kwargs f = .ok (v, f)) ∧
    (∀ (kwargs : List (String × Value)) (f : String),
        lookupVal kwargs f = none → supported_keys.contains f = true →
        get_field kwargs f = .ok (.none, f)) := by
  refine ⟨?_, ?_, ?_⟩
  · intro kwargs f h1 h2
    have h2m : f ∉ supported_keys := by simpa using h2
    simp [get_field, h1, h2m]
  · intro kwargs f v h1
    simp [get_field, h1]
  · intro kwargs f h1 h2
    have h2m : f ∈ supported_keys := by simpa using h2
    simp [get_field, h1, h2m]

/-- C3 amended witness: an unsupported name absent from the mapping raises. -/
theorem c3_amended_witness :
    get_field [] "zzz" = .error (.keyError "zzz") :=
  c3_amended_get_field.1 [] "zzz" rfl rfl

/-- C8 counterexample: a `TypeError` raised while applying the format spec
(a numeric spec on a list value) is not caught: the result is the error, not
the bad-format marker `"!!"`. -/
theorem c8_counterexample :
    format_field {} "performers" (Value.list ["a"]) "d" = .error .typeError ∧
    (Except.error PyErr.typeError : Except PyErr String) ≠ .ok "!!" :=
  ⟨rfl, fun h => Except.noConfusion h⟩

/-- C8 amended: only `ValueError` raised while applying a format spec is
caught and replaced with the bad-format marker; when that marker is empty the
`ValueError` propagates, and errors of any other class always propagate.
The closed conjunct shows a real `ValueError` being swallowed into `"!!"`. -/
theorem c8_amended_format_errors :
    (∀ (pf : PartialFormatter) (cf : String) (v : Value) (spec : String) (e : PyErr),
        isFalsy v = false →
        applySpec (nameAdjust cf v) spec = .error e →
        ((e = .valueError ∧ pf.bad_fmt ≠ "" → format_field pf cf v spec = .ok pf.bad_fmt) ∧
         (e ≠ .valueError ∨ pf.bad_fmt = "" → format_field pf cf v spec = .error e))) ∧
    format_field {} "site" (Value.str "abc") "d" = .ok "!!" := by
  constructor
  · intro pf cf v spec e h1 h2
    constructor
    · rintro ⟨he, hb⟩
      subst he
      simp [format_field, h1, h2, hb]
    · intro hor
      rcases hor with he | hb
      · cases e <;> simp_all [format_field]
      · cases e <;> simp [format_field, h1, h2, hb]
  · rfl

/-- C8 amended witness: with an empty bad-format marker, a `ValueError`
raised by the spec application propagates to the caller. -/
theorem c8_amended_witness :
    format_field { bad_fmt := "" } "site" (Value.str "abc") "d" = .error .valueError :=
  (c8_amended_format_errors.1 { bad_fmt := "" } "site" (Value.str "abc") "d"
    .valueError rfl rfl).2 (Or.inr rfl)

/-- Invariant: every branch of the cascade carries the original filename. -/
theorem parse_source_aux (cfg : NamerConfig) (fn : String) :
    (parse_file_name cfg fn).source_file_name = some fn := by
  unfold parse_file_name
  cases h : tpdbSearch (pyStem fn) with
  | some ds => simp only [h]; rfl
  | none =>
    simp only [h]
    cases htok : tokenSearch (replace_abbreviations cfg fn) with
    | some m =>
      simp only [htok]
      rw [(applyTokenMatch_pres cfg m _).2.1, (withCode_pres _ _).2.1]
      rfl
    | none =>
      simp only [htok]
      rw [(withCode_pres _ _).2.1]
      rfl

/-- Invariant: every branch of the cascade keeps the path-derived extension. -/
theorem parse_extension_aux (cfg : NamerConfig) (fn : String) :
    (parse_file_name cfg fn).extension = some (pyExtension fn) := by
  unfold parse_file_name
  cases h : tpdbSearch (pyStem fn) with
  | some ds => simp only [h]; rfl
  | none =>
    simp only [h]
    cases htok : tokenSearch (replace_abbreviations cfg fn) with
    | some m =>
      simp only [htok]
      rw [(applyTokenMatch_pres cfg m _).1, (withCode_pres _ _).1]
      rfl
    | none =>
      simp only [htok]
      rw [(withCode_pres _ _).1]
      rfl

/-- C1 counterexample: on a TPDB-tagged filename the returned record has
`tpdb_id` set, but `source_file_name` is populated as well (it always carries
the original input), so not every field besides the database id and the
extension is unset. -/
theorem c1_counterexample :
    (parse_file_name cfgEmpty "[porndbid=1234].mp4").tpdb_id = some 1234 ∧
    (parse_file_name cfgEmpty "[porndbid=1234].mp4").source_file_name ≠ none := by
  refine ⟨rfl, ?_⟩
  intro h
  rw [show (parse_file_name cfgEmpty "[porndbid=1234].mp4").source_file_name
        = some "[porndbid=1234].mp4" from rfl] at h
  exact Option.noConfusion h

/-- C1 amended: when the TPDB bracket tag matches in the stem,
`parse_file_name` returns immediately with `tpdb_id` set to the integer value
of the digits, the extension, and `source_file_name` (always the original
input); every other field keeps its default and no later cascade stage runs. -/
theorem c1_amended_tpdb_fast_path (cfg : NamerConfig) (fn ds : String)
    (h : tpdbSearch (pyStem fn) = some ds) :
    parse_file_name cfg fn =
      { source_file_name := some fn, extension := some (pyExtension fn),
        tpdb_id := some (digitsToNat ds) } := by
  unfold parse_file_name
  simp only [h]
  rfl

/-- C1 amended witness: a tagged filename that also contains a catalog code;
the fast path returns with `jav_code` and all other fields untouched. -/
theorem c1_amended_witness :
    parse_file_name cfgEmpty "[porndbid=1234] ABC-123.mp4" =
      { source_file_name := some "[porndbid=1234] ABC-123.mp4",
        extension := some "mp4", tpdb_id := some 1234 } :=
  c1_amended_tpdb_fast_path cfgEmpty "[porndbid=1234] ABC-123.mp4" "1234" rfl

/-- C2 counterexample: the extension is not lowercased - `"a.MP4"` yields
extension `"MP4"`, not `"mp4"`. -/
theorem c2_counterexample :
    (parse_file_name cfgEmpty "a.MP4").extension = some "MP4" ∧ "MP4" ≠ "mp4" :=
  ⟨rfl, by decide⟩

/-- C2 amended: for every input, the returned extension is exactly the
trailing suffix of the filesystem path with the leading dot stripped, in its
original case (empty when there is no suffix), and no later stage - in
particular the extension group of the token regex - ever overwrites it. -/
theorem c2_amended_extension (cfg : NamerConfig) (fn : String) :
    (parse_file_name cfg fn).extension = some (pyExtension fn) :=
  parse_extension_aux cfg fn

/-- C4: catalog-code extraction accepts the first (in order of appearance)
`findall` candidate of 2-5 letters, a dash, and 3-5 digits whose uppercased
form does not start with a forbidden prefix and whose digit part is not a
forbidden resolution; the accepted code is stored uppercased with code type
`JAV` (CatalogCode in the spec).  `"Site.Name.WEBDL-720.mp4"`, whose only
candidate is rejected on both grounds, ends with no code kind at all. -/
theorem c4_catalog_code :
    (∀ (cfg : NamerConfig) (fn c : String),
        tpdbSearch (pyStem fn) = none →
        javFirstAccepted (pyStem fn) = some c →
        (parse_file_name cfg fn).jav_code = some (pyUpper c) ∧
        (parse_file_name cfg fn).code_type = some "JAV") ∧
    (parse_file_name cfgEmpty "Site.Name.WEBDL-720.mp4").jav_code = none ∧
    (parse_file_name cfgEmpty "Site.Name.WEBDL-720.mp4").code_type = none := by
  refine ⟨?_, rfl, rfl⟩
  intro cfg fn c h1 h2
  have hcode : codeSearch (pyStem fn) = some (pyUpper c, "JAV") := by
    unfold codeSearch
    simp only [h2]
  unfold parse_file_name
  simp only [h1]
  cases htok : tokenSearch (replace_abbreviations cfg fn) with
  | some m =>
    simp only [htok]
    refine ⟨?_, ?_⟩
    · rw [(applyTokenMatch_pres cfg m _).2.2.1, hcode]
      rfl
    · rw [(applyTokenMatch_pres cfg m _).2.2.2.1, hcode]
      rfl
  | none =>
    simp only [htok]
    rw [hcode]
    exact ⟨rfl, rfl⟩

/-- C4 witness: `"ABC-12345.mp4"` yields `jav_code = "ABC-12345"` with code
type `JAV`. -/
theorem c4_witness :
    (parse_file_name cfgEmpty "ABC-12345.mp4").jav_code = some "ABC-12345" ∧
    (parse_file_name cfgEmpty "ABC-12345.mp4").code_type = some "JAV" :=
  c4_catalog_code.1 cfgEmpty "ABC-12345.mp4" "ABC-12345" rfl rfl

/-- C5 counterexample: `"DID-4521.mp4"` does contain a catalog-code match
(`DID` is 2-5 letters and `4521` is 3-5 digits), so the code yields the
catalog code `"DID-4521"` with code type `JAV`, not a scene id. -/
theorem c5_counterexample :
    (parse_file_name cfgEmpty "DID-4521.mp4").jav_code = some "DID-4521" ∧
    (parse_file_name cfgEmpty "DID-4521.mp4").code_type = some "JAV" :=
  ⟨rfl, rfl⟩

/-- C5 amended: scene-ID extraction runs only when catalog-code extraction
accepted nothing; a whole-word `did`/`milf` token, optionally dash-joined,
followed by 2-4 digits is stored lowercased with code type `SCENE_MOVIE_ID`
(SceneId in the spec). -/
theorem c5_amended_scene_id (cfg : NamerConfig) (fn g : String)
    (h1 : tpdbSearch (pyStem fn) = none)
    (h2 : javFirstAccepted (pyStem fn) = none)
    (h3 : sceneSearch (pyStem fn) = some g) :
    (parse_file_name cfg fn).jav_code = some (pyLower g) ∧
    (parse_file_name cfg fn).code_type = some "SCENE_MOVIE_ID" := by
  have hcode : codeSearch (pyStem fn) = some (pyLower g, "SCENE_MOVIE_ID") := by
    unfold codeSearch
    simp only [h2, h3]
  unfold parse_file_name
  simp only [h1]
  cases htok : tokenSearch (replace_abbreviations cfg fn) with
  | some m =>
    simp only [htok]
    refine ⟨?_, ?_⟩
    · rw [(applyTokenMatch_pres cfg m _).2.2.1, hcode]
      rfl
    · rw [(applyTokenMatch_pres cfg m _).2.2.2.1, hcode]
      rfl
  | none =>
    simp only [htok]
    rw [hcode]
    exact ⟨rfl, rfl⟩

/-- C5 amended witness: `"DID-45.mp4"` (two digits, so the catalog-code
pattern cannot match) yields `jav_code = "did-45"`, code type
`SCENE_MOVIE_ID`. -/
theorem c5_amended_witness :
    (parse_file_name cfgEmpty "DID-45.mp4").jav_code = some "did-45" ∧
    (parse_file_name cfgEmpty "DID-45.mp4").code_type = some "SCENE_MOVIE_ID" :=
  c5_amended_scene_id cfgEmpty "DID-45.mp4" "DID-45" rfl rfl rfl

/-- C6: the trans character classes of the source, `[T|t][S|s]` also match the
literal `'|'`: on `"a.t|.name.mp4"` the composite pattern matches with the
trans group capturing `"t|"`, which is not `"TS"` up to case - contradicting
the claim that the trans placeholder matches only an optional case-insensitive
`TS` token.  The flag computation still holds: the flag is set true exactly
when the trimmed, uppercased capture equals `"TS"`, so it stays false here and
is true for a real `ts` marker. -/
theorem c6_trans_marker_eval :
    tokenSearch "a.t|.name.mp4" =
      some { site := "a", ymd := none, trans := some "t|", name := "name", ext := "mp4" } ∧
    (parse_file_name cfgEmpty "a.t|.name.mp4").trans = false ∧
    (parse_file_name cfgEmpty "a.ts.name.mp4").trans = true :=
  ⟨rfl, rfl, rfl⟩

/-- C7: `parse_file_name` is total - it always returns a record carrying the
original filename and the path-derived extension - and when every matcher
stage fails the result is exactly the default record with only those two
fields populated: unparseable input never raises. -/
theorem c7_total_cascade (cfg : NamerConfig) (fn : String) :
    (parse_file_name cfg fn).source_file_name = some fn ∧
    (parse_file_name cfg fn).extension = some (pyExtension fn) ∧
    (tpdbSearch (pyStem fn) = none →
      javFirstAccepted (pyStem fn) = none →
      sceneSearch (pyStem fn) = none →
      tokenSearch (replace_abbreviations cfg fn) = none →
      parse_file_name cfg fn =
        { source_file_name := some fn, extension := some (pyExtension fn) }) := by
  refine ⟨parse_source_aux cfg fn, parse_extension_aux cfg fn, ?_⟩
  · intro h1 h2 h3 h4
    unfold parse_file_name
    simp only [h1, h4]
    unfold codeSearch
    simp only [h2, h3]
    rfl

/-- C7 witness: an input where every stage fails - the result is the
default-populated record. -/
theorem c7_witness :
    parse_file_name cfgEmpty "x" =
      { source_file_name := some "x", extension := some "" } :=
  (c7_total_cascade cfgEmpty "x").2.2 rfl rfl rfl rfl
